import Mathlib

/-
Verification of the campaign send loop of a WhatsApp bulk-messaging server.

The development shallowly embeds the relevant parts of the source:

* `Renderer`   — the `replaceVariables` closure defined inside `processCampaign`
                 (routes file), which substitutes `{nome}`, `{telefone}` and the
                 contact's custom-field placeholders in a template, globally.
* `Whatsapp`   — `WhatsappService.sendMessage` (src/server/services/whatsapp.ts),
                 including its connection check, typing simulation, the
                 `detached Frame` reconnect-and-retry policy, and its
                 result-object error discipline.  Client calls are modelled as
                 oracles returning `Except`, so the placement of every
                 try/catch of the source is explicit in the definition.
* `Dispatcher` — the `processCampaign` loop of the routes file: per-contact
                 checkpointing against externally mutated campaign status,
                 per-contact send, message blocks, counters, activity log and
                 broadcast events, and the final completion check.

Strings are modelled as `List Char`; machine concerns (timers, websockets,
the SQLite store) are abstracted into explicit state and oracles, keeping
the control flow and field updates of the source.
-/

namespace Renderer

/-- `prefixTest p s` is true iff `p` is a leading segment of `s`
(character-for-character match at the start). -/
def prefixTest : List Char → List Char → Bool
  | [], _ => true
  | _ :: _, [] => false
  | p :: ps, c :: cs => p == c && prefixTest ps cs

/-- `containsSub pat s` is true iff `pat` occurs contiguously somewhere in `s`
(the `String.prototype.includes` / regex-literal-match test of the source). -/
def containsSub (pat : List Char) : List Char → Bool
  | [] => prefixTest pat []
  | c :: rest => prefixTest pat (c :: rest) || containsSub pat rest

/-- Fuel-driven worker for global replacement: scan left to right, replace each
non-overlapping occurrence of the pattern, continue after the replacement
(the semantics of `String.prototype.replace` with a `g` regex on a literal
pattern).  The fuel is an upper bound on the scanned length, making the
recursion structural. -/
def replaceAllGo (pat rep : List Char) : Nat → List Char → List Char
  | _, [] => []
  | 0, s => s
  | Nat.succ fuel, c :: rest =>
    if prefixTest pat (c :: rest) then
      rep ++ replaceAllGo pat rep fuel (List.drop (pat.length - 1) rest)
    else
      c :: replaceAllGo pat rep fuel rest

/-- Global replacement of every occurrence of `pat` by `rep` in `s`
(`s.replace(/pat/g, rep)` for a literal pattern). -/
def replaceAll (pat rep s : List Char) : List Char :=
  match pat with
  | [] => s
  | _ :: _ => replaceAllGo pat rep s.length s

end Renderer

namespace Dispatcher

/-- Campaign status values (`status` column of the `campaigns` table). -/
inductive CStatus where
  | draft | active | paused | stopped | completed
deriving DecidableEq, Repr

/-- Contact status values (`status` column of the `contacts` table). -/
inductive ContactStatus where
  | pending | sent | failed
deriving DecidableEq, Repr

/-- A contact row, as read by `processCampaign`.  `customFields` is the parsed
form of the JSON `custom_fields` column: placeholder keys paired with the
string form of their values, in insertion order (`Object.entries`). -/
structure Contact where
  id : Nat
  name : List Char
  phone : List Char
  customFields : List (List Char × List Char)
  status : ContactStatus
  sentAt : Option Nat
  errorMessage : Option (List Char)
deriving DecidableEq, Repr

/-- A campaign row, with `messageBlocks` already JSON-parsed into its list of
secondary templates (`[]` covers both a null column and an empty array, which
the source treats identically). -/
structure Campaign where
  name : List Char
  status : CStatus
  message : List Char
  messageBlocks : List (List Char)
  messageInterval : Nat
  showTyping : Bool
  totalContacts : Nat
  sentCount : Nat
  failedCount : Nat
deriving DecidableEq, Repr

/-- Activity-log rows appended by `processCampaign`.  `messageSent cid none t`
is the primary-message entry for contact `cid` with rendered text `t`;
`messageSent cid (some i) t` is the entry for block number `i` (1-based, as
logged by the source); `blockError` is the `type: 'error'` entry for a failed
block; `campaignCompleted` is the completion entry. -/
inductive LogEntry where
  | messageSent (contactId : Nat) (blockIndex : Option Nat) (text : List Char)
  | blockError (contactId : Nat) (blockIndex : Nat) (error : List Char)
  | campaignCompleted
deriving DecidableEq, Repr

/-- Broadcast events.  `progressSent cid p` is the
`campaign_progress {status: 'sent', progress: p}` event, `progressFailed` the
`campaign_progress {status: 'failed', error}` event, `blockSent` the
`message_block_sent` event and `campaignCompleted` the final event. -/
inductive Event where
  | progressSent (contactId : Nat) (progress : ℚ)
  | progressFailed (contactId : Nat) (error : List Char)
  | blockSent (contactId : Nat) (blockIndex totalBlocks : Nat)
  | campaignCompleted (name : List Char)
deriving DecidableEq, Repr

/-- The store state seen by one `processCampaign` run, plus the write-only
log/event streams and a checkpoint counter `tick` that sequences the
campaign re-reads (each re-read may observe a concurrent external status
write, see `Env.statusOverride`). -/
structure St where
  campaign : Campaign
  contacts : List Contact
  log : List LogEntry
  events : List Event
  tick : Nat
deriving DecidableEq, Repr

/-- The environment of a run: concurrent external pause/stop/start commands
(`statusOverride t` is the status written just before the `t`-th campaign
re-read, if any), the result of `whatsappService.sendMessage` for each
contact's primary message (`none` = `{success: true}`, `some e` =
`{success: false, error: e}`), the same for each (contact, block-position)
pair, and `exc cid`, an unexpected exception thrown while processing contact
`cid` (caught by the per-contact catch of the source). -/
structure Env where
  statusOverride : Nat → Option CStatus
  primary : Nat → Option (List Char)
  block : Nat → Nat → Option (List Char)
  exc : Nat → Option (List Char)

/-- One `storage.getCampaign` checkpoint: any pending external status write
lands first, then the dispatcher reads the (possibly new) status. -/
def applyOverride (env : Env) (st : St) : St :=
  match env.statusOverride st.tick with
  | some s => { st with campaign := { st.campaign with status := s }, tick := st.tick + 1 }
  | none => { st with tick := st.tick + 1 }

/-- `storage.updateContact cid patch`: patch every stored contact with id
`cid` (ids are primary keys, so at most one in well-formed states). -/
def updC (contacts : List Contact) (cid : Nat) (f : Contact → Contact) : List Contact :=
  contacts.map (fun c => if c.id = cid then f c else c)

/-- The `block.trim() !== ''` guard of the source: a block is sent only if it
has a non-whitespace character. -/
def trimmedNonempty (l : List Char) : Bool :=
  l.any (fun c => !c.isWhitespace)

/-- `{nome}` / `{telefone}` / `{key}`: a key wrapped in braces. -/
def placeholder (key : List Char) : List Char :=
  '\x7b' :: (key ++ ['\x7d'])

/-- The `replaceVariables` closure of `processCampaign`: substitute, in
order, every occurrence of `{nome}` by the contact's name, every occurrence
of `{telefone}` by its phone, and then, for each custom field `(k, v)` in
entry order, every occurrence of `{k}` by `v`. -/
def replaceVariables (contact : Contact) (messageText : List Char) : List Char :=
  let m1 := Renderer.replaceAll (placeholder "nome".toList) contact.name messageText
  let m2 := Renderer.replaceAll (placeholder "telefone".toList) contact.phone m1
  contact.customFields.foldl
    (fun acc kv => Renderer.replaceAll (placeholder kv.1) kv.2 acc) m2

/-- The `blockResult.error` test of the source: a block failure is
connection-kind when its message mentions `detached Frame` or
`não conectado`. -/
def connKindErr (err : List Char) : Bool :=
  Renderer.containsSub "detached Frame".toList err ||
  Renderer.containsSub "não conectado".toList err

/-- The block loop of the success branch: for each block (1-based index
`idx + 1`, `total` blocks overall), skip blank blocks; otherwise wait, re-read
the campaign (a checkpoint), abort all remaining blocks if it is no longer
active, render and send the block; log a success entry and emit a
`message_block_sent` event, or log an error entry and, for a connection-kind
failure, stop the remaining blocks for this contact. -/
def runBlocks (env : Env) (c : Contact) (camp0 : Campaign) :
    List (List Char) → Nat → Nat → St → St
  | [], _, _, st => st
  | b :: rest, idx, total, st =>
    if ¬ trimmedNonempty b then runBlocks env c camp0 rest (idx + 1) total st
    else
      let st1 := applyOverride env st
      if st1.campaign.status ≠ CStatus.active then st1
      else
        match env.block c.id idx with
        | none =>
          let st2 := { st1 with
            log := st1.log ++ [LogEntry.messageSent c.id (some (idx + 1)) (replaceVariables c b)],
            events := st1.events ++ [Event.blockSent c.id (idx + 1) total] }
          runBlocks env c camp0 rest (idx + 1) total st2
        | some err =>
          let st2 := { st1 with
            log := st1.log ++ [LogEntry.blockError c.id (idx + 1) err] }
          if connKindErr err then st2
          else runBlocks env c camp0 rest (idx + 1) total st2

/-- The success branch of one contact iteration (`result.success` true),
starting from the state `st1` just after this contact's checkpoint: mark the
contact `sent` with a send timestamp, log the primary send, run the block
loop if the campaign has blocks, then write `sentCount + 1` (using the
counter read at the checkpoint) and emit the `campaign_progress`
`{status: 'sent'}` event whose progress divides by the number of loaded
contacts (`total`). -/
def successStep (env : Env) (camp0 : Campaign) (total : Nat) (c : Contact) (st1 : St) : St :=
  let cur := st1.campaign
  let st2 := { st1 with
    contacts := updC st1.contacts c.id
      (fun x => { x with status := ContactStatus.sent, sentAt := some st1.tick }),
    log := st1.log ++ [LogEntry.messageSent c.id none (replaceVariables c camp0.message)] }
  let st3 :=
    if camp0.messageBlocks ≠ [] then
      runBlocks env c camp0 camp0.messageBlocks 0 camp0.messageBlocks.length st2
    else st2
  { st3 with
    campaign := { st3.campaign with sentCount := cur.sentCount + 1 },
    events := st3.events ++
      [Event.progressSent c.id (((cur.sentCount + 1 : ℚ) / (total : ℚ)) * 100)] }

/-- The failure branch of one contact iteration (`result.success` false with
error `err`): mark the contact `failed` with the error message, write
`failedCount + 1` (counter read at the checkpoint) and emit the
`campaign_progress` `{status: 'failed'}` event. -/
def failStep (c : Contact) (err : List Char) (st1 : St) : St :=
  let cur := st1.campaign
  let st2 := { st1 with
    contacts := updC st1.contacts c.id
      (fun x => { x with status := ContactStatus.failed, errorMessage := some err }) }
  { st2 with
    campaign := { st2.campaign with failedCount := cur.failedCount + 1 },
    events := st2.events ++ [Event.progressFailed c.id err] }

/-- The per-contact catch of the source: an unexpected exception with message
`m` marks the contact `failed` with that message and touches nothing else. -/
def excStep (c : Contact) (m : List Char) (st1 : St) : St :=
  { st1 with
    contacts := updC st1.contacts c.id
      (fun x => { x with status := ContactStatus.failed, errorMessage := some m }) }

/-- The contact loop of `processCampaign` over the selected pending contacts:
at each contact, re-read the campaign (checkpoint) and stop if it is no
longer active; otherwise process the contact by the exception, success or
failure step and continue with the rest.  `camp0` is the campaign snapshot
taken when the run started (used for templates, blocks and settings);
`total` is the number of loaded contacts. -/
def runLoop (env : Env) (camp0 : Campaign) (total : Nat) :
    List Contact → St → St
  | [], st => st
  | c :: rest, st =>
    let st1 := applyOverride env st
    if st1.campaign.status ≠ CStatus.active then st1
    else
      match env.exc c.id with
      | some m => runLoop env camp0 total rest (excStep c m st1)
      | none =>
        match env.primary c.id with
        | none => runLoop env camp0 total rest (successStep env camp0 total c st1)
        | some err => runLoop env camp0 total rest (failStep c err st1)

/-- The completion check after the loop: re-load the contacts; if none is
still pending, set the campaign `completed`, record the activity-log entry
and broadcast the `campaign_completed` event; otherwise leave the state
untouched. -/
def completionCheck (st : St) : St :=
  if (st.contacts.filter (fun c => c.status == ContactStatus.pending)).length = 0 then
    { st with
      campaign := { st.campaign with status := CStatus.completed },
      log := st.log ++ [LogEntry.campaignCompleted],
      events := st.events ++ [Event.campaignCompleted st.campaign.name] }
  else st

/-- Recognizer for the `campaign_completed` broadcast event. -/
def isCompletedEv : Event → Bool
  | Event.campaignCompleted _ => true
  | _ => false

/-- `processCampaign`: load the campaign (a checkpoint — abort silently
unless it is active), select the pending contacts of the loaded contact
list, run the contact loop, then run the completion check. -/
def processCampaign (env : Env) (st : St) : St :=
  let st0 := applyOverride env st
  if st0.campaign.status ≠ CStatus.active then st0
  else
    let pending := st0.contacts.filter (fun c => c.status == ContactStatus.pending)
    completionCheck (runLoop env st0.campaign st0.contacts.length pending st0)

end Dispatcher

namespace Whatsapp

/-- The result object of `WhatsappService.sendMessage`:
`{ success: boolean; error?: string }`. -/
structure SendResult where
  success : Bool
  error : Option String
deriving DecidableEq, Repr

/-- `String.prototype.includes` on the error messages of the service. -/
def includes (s pat : String) : Bool :=
  Renderer.containsSub pat.toList s.toList

/-- Behaviour of the underlying wppconnect client, per send attempt index
(for `connState`, `typing`, `sendText`) or reconnect-cycle index (for
`reconnect`).  An `.error m` value is the call throwing with message `m`;
`reconnect` returns whether `this.client` is non-null after the
disconnect/sleep/connect/poll sequence. -/
structure ClientBehavior where
  connState : Nat → Except String String
  typing : Nat → Except String Unit
  sendText : Nat → Except String Unit
  reconnect : Nat → Except String Bool

/-- The body of the outer `try` of one attempt: the state check in its own
try/catch (a thrown state check is logged and ignored; a non-`CONNECTED`
state returns a failure result), the typing simulation in its own try/catch
(its outcome is discarded), then `sendText`.  `.ok (some r)` is an early
failure return, `.ok none` a successful send, `.error m` a throw that
reaches the outer catch. -/
def attemptBody (b : ClientBehavior) (showTyping : Bool) (aIdx : Nat) :
    Except String (Option SendResult) :=
  let stateGate : Option SendResult :=
    match b.connState aIdx with
    | .ok st =>
      if st = "CONNECTED" then none
      else some ⟨false, some ("WhatsApp não conectado. Estado: " ++ st)⟩
    | .error _ => none
  match stateGate with
  | some r => .ok (some r)
  | none =>
    let _ : Except String Unit := if showTyping then b.typing aIdx else .ok ()
    match b.sendText aIdx with
    | .ok _ => .ok none
    | .error m => .error m

/-- `WhatsappService.sendMessage`, instrumented with the number of `sendText`
attempts and of disconnect-reconnect cycles it performs.  An `.error` result
would be the call throwing; every path of the source is covered by a catch,
which the proof `sendMessage_total` makes explicit.  The recursive call after
a successful reconnect runs with the client up and `retries - 1`, exactly as
in the source; a `detached Frame` failure with no retries left, or any other
failure, returns the underlying message as the failure result. -/
def sendMessage (b : ClientBehavior) (toAddr message : String) (showTyping : Bool) :
    Bool → Nat → Nat → Nat → Except String (SendResult × Nat × Nat)
  | false, _, _, _ => .ok (⟨false, some "WhatsApp not connected"⟩, 0, 0)
  | true, 0, aIdx, _ =>
    match attemptBody b showTyping aIdx with
    | .ok (some r) => .ok (r, 0, 0)
    | .ok none => .ok (⟨true, none⟩, 1, 0)
    | .error m => .ok (⟨false, some m⟩, 1, 0)
  | true, Nat.succ r, aIdx, rIdx =>
    match attemptBody b showTyping aIdx with
    | .ok (some res) => .ok (res, 0, 0)
    | .ok none => .ok (⟨true, none⟩, 1, 0)
    | .error m =>
      if includes m "detached Frame" then
        match b.reconnect rIdx with
        | .error rm => .ok (⟨false, some ("Erro ao reconectar: " ++ rm)⟩, 1, 1)
        | .ok cu =>
          if cu then
            match sendMessage b toAddr message showTyping true r (aIdx + 1) (rIdx + 1) with
            | .ok (res, a, cyc) => .ok (res, a + 1, cyc + 1)
            | .error e => .ok (⟨false, some ("Erro ao reconectar: " ++ e)⟩, 1, 1)
          else .ok (⟨false, some "Falha ao reconectar após erro de Frame"⟩, 1, 1)
      else .ok (⟨false, some m⟩, 1, 0)

end Whatsapp

/-
Concrete fixtures used by witnesses and counterexamples.
-/

namespace Dispatcher

/-- The contact of the spec's rendering example: name `Ana`, phone
`11999999999`, custom fields `{plano: Gold}`. -/
def anaContact : Contact :=
  { id := 1, name := "Ana".toList, phone := "11999999999".toList,
    customFields := [("plano".toList, "Gold".toList)],
    status := ContactStatus.pending, sentAt := none, errorMessage := none }

/-- An environment with no external commands, no exceptions and every send
succeeding. -/
def okEnv : Env :=
  { statusOverride := fun _ => none, primary := fun _ => none,
    block := fun _ _ => none, exc := fun _ => none }

/-- An environment in which processing any contact throws an unexpected
exception with message `boom`. -/
def excEnv : Env :=
  { statusOverride := fun _ => none, primary := fun _ => none,
    block := fun _ _ => none, exc := fun _ => some "boom".toList }

/-- A minimal active campaign with one contact's worth of counters. -/
def baseCampaign : Campaign :=
  { name := "Camp".toList, status := CStatus.active,
    message := "Hi \x7bnome\x7d".toList, messageBlocks := [],
    messageInterval := 5, showTyping := true,
    totalContacts := 1, sentCount := 0, failedCount := 0 }

/-- A fresh pending contact with the given id. -/
def pendContact (i : Nat) : Contact :=
  { id := i, name := "Ana".toList, phone := "11999999999".toList,
    customFields := [], status := ContactStatus.pending,
    sentAt := none, errorMessage := none }

/-- A one-contact store state for `baseCampaign`. -/
def baseSt : St :=
  { campaign := baseCampaign, contacts := [pendContact 0],
    log := [], events := [], tick := 0 }

/-- An environment whose external command pauses the campaign before every
checkpoint. -/
def pauseEnv : Env :=
  { statusOverride := fun _ => some CStatus.paused, primary := fun _ => none,
    block := fun _ _ => none, exc := fun _ => none }

/-- An environment in which every primary send returns the not-connected
failure result. -/
def failEnv : Env :=
  { statusOverride := fun _ => none,
    primary := fun _ => some "WhatsApp not connected".toList,
    block := fun _ _ => none, exc := fun _ => none }

/-- An environment in which every block send fails with a connection-kind
error. -/
def blockFailEnv : Env :=
  { statusOverride := fun _ => none, primary := fun _ => none,
    block := fun _ _ => some "WhatsApp não conectado. Estado: CONFLICT".toList,
    exc := fun _ => none }

/-- A contact already sent in an earlier run. -/
def sentContact : Contact :=
  { id := 7, name := "Bia".toList, phone := "11888888888".toList,
    customFields := [], status := ContactStatus.sent, sentAt := some 3,
    errorMessage := none }

/-- A state whose only contact was already sent. -/
def sentSt : St :=
  { campaign := baseCampaign, contacts := [sentContact],
    log := [], events := [], tick := 0 }

/-- `baseCampaign` with two message blocks. -/
def blocksCampaign : Campaign :=
  { baseCampaign with
    messageBlocks := ["Bloco A".toList, "Bloco B".toList] }

/-- `pendContact 0` after failing with the exception message `boom`. -/
def failedBoomContact : Contact :=
  { pendContact 0 with
    status := ContactStatus.failed, errorMessage := some "boom".toList }

end Dispatcher

namespace Whatsapp

/-- A client whose every `sendText` throws a `detached Frame` error while the
connection state reads healthy and every reconnect cycle brings the client
back up: the always-transient scenario of the retry-bound property. -/
def detachedClient : ClientBehavior :=
  { connState := fun _ => Except.ok "CONNECTED",
    typing := fun _ => Except.ok (),
    sendText := fun _ => Except.error "Protocol error: detached Frame",
    reconnect := fun _ => Except.ok true }

end Whatsapp

/-
Theorems.  Each claim of the specification is settled by exactly one
theorem below; shared helper lemmas come first.
-/

namespace Renderer

theorem replaceAllGo_of_not_contains (pat rep : List Char) :
    ∀ (fuel : Nat) (s : List Char), containsSub pat s = false →
      replaceAllGo pat rep fuel s = s := by
  intro fuel
  induction fuel with
  | zero => intro s _; cases s <;> rfl
  | succ n ih =>
    intro s hs
    cases s with
    | nil => rfl
    | cons c rest =>
      simp only [containsSub, Bool.or_eq_false_iff] at hs
      simp only [replaceAllGo, hs.1, if_false]
      rw [ih rest hs.2]
      simp

/-- A string in which the pattern does not occur is left verbatim by
global replacement. -/
theorem replaceAll_of_not_contains (pat rep s : List Char)
    (h : containsSub pat s = false) : replaceAll pat rep s = s := by
  cases pat with
  | nil => rfl
  | cons p ps => exact replaceAllGo_of_not_contains _ _ _ _ h

end Renderer

namespace Dispatcher

theorem foldl_replaceAll_of_not_contains :
    ∀ (fields : List (List Char × List Char)) (t : List Char),
      (∀ kv ∈ fields, Renderer.containsSub (placeholder kv.1) t = false) →
      fields.foldl (fun acc kv => Renderer.replaceAll (placeholder kv.1) kv.2 acc) t = t := by
  intro fields
  induction fields with
  | nil => intro t _; rfl
  | cons kv rest ih =>
    intro t h
    simp only [List.foldl_cons]
    rw [Renderer.replaceAll_of_not_contains _ _ _ (h kv (List.mem_cons_self kv rest))]
    exact ih t (fun kv' h' => h kv' (List.mem_cons_of_mem kv h'))

/-- C4: `replaceVariables` substitutes globally and leaves unmatched
placeholders verbatim.  Part 1 is the spec's example; part 2 shows that a
placeholder with no corresponding field (`\x7bmarca\x7d`) survives verbatim
alongside substitutions; part 3 shows replacement of every occurrence, not
just the first; part 4 is the general statement that a template containing
none of the contact's placeholders is returned unchanged. -/
theorem replaceVariables_spec :
    (replaceVariables anaContact
        "Hi \x7bnome\x7d, tel \x7btelefone\x7d, plan \x7bplano\x7d".toList
      = "Hi Ana, tel 11999999999, plan Gold".toList) ∧
    (replaceVariables anaContact
        "plan \x7bplano\x7d, brand \x7bmarca\x7d, \x7bnome\x7d".toList
      = "plan Gold, brand \x7bmarca\x7d, Ana".toList) ∧
    (replaceVariables anaContact
        "\x7bnome\x7d+\x7bnome\x7d=\x7btelefone\x7d \x7btelefone\x7d".toList
      = "Ana+Ana=11999999999 11999999999".toList) ∧
    ∀ (c : Contact) (t : List Char),
      Renderer.containsSub (placeholder "nome".toList) t = false →
      Renderer.containsSub (placeholder "telefone".toList) t = false →
      (∀ kv ∈ c.customFields, Renderer.containsSub (placeholder kv.1) t = false) →
      replaceVariables c t = t := by
  refine ⟨by decide, by decide, by decide, ?_⟩
  intro c t h1 h2 h3
  unfold replaceVariables
  simp only []
  rw [Renderer.replaceAll_of_not_contains _ _ _ h1,
      Renderer.replaceAll_of_not_contains _ _ _ h2]
  exact foldl_replaceAll_of_not_contains c.customFields t h3

/-- C4 witness: the general part of `replaceVariables_spec` evaluated at a
concrete contact and placeholder-free template. -/
theorem replaceVariables_spec_witness :
    replaceVariables anaContact "Oi tudo bem".toList = "Oi tudo bem".toList :=
  replaceVariables_spec.2.2.2 anaContact "Oi tudo bem".toList
    (by decide) (by decide) (by decide)

theorem applyOverride_frame (env : Env) (st : St) :
    (applyOverride env st).contacts = st.contacts ∧
    (applyOverride env st).campaign.sentCount = st.campaign.sentCount ∧
    (applyOverride env st).campaign.failedCount = st.campaign.failedCount ∧
    (applyOverride env st).campaign.totalContacts = st.campaign.totalContacts ∧
    (applyOverride env st).log = st.log ∧
    (applyOverride env st).events = st.events := by
  unfold applyOverride
  cases env.statusOverride st.tick <;> simp

theorem applyOverride_none (env : Env) (st : St)
    (h : env.statusOverride st.tick = none) :
    applyOverride env st = { st with tick := st.tick + 1 } := by
  unfold applyOverride
  rw [h]

theorem updC_getElem? (cs : List Contact) (cid : Nat) (f : Contact → Contact)
    (i : Nat) :
    (updC cs cid f)[i]? = (cs[i]?).map (fun c => if c.id = cid then f c else c) := by
  unfold updC
  exact List.getElem?_map _ _ _

theorem runBlocks_frame (env : Env) (c : Contact) (camp0 : Campaign) :
    ∀ (blocks : List (List Char)) (idx total : Nat) (st : St),
      (runBlocks env c camp0 blocks idx total st).contacts = st.contacts ∧
      (runBlocks env c camp0 blocks idx total st).campaign.sentCount
        = st.campaign.sentCount ∧
      (runBlocks env c camp0 blocks idx total st).campaign.failedCount
        = st.campaign.failedCount ∧
      (runBlocks env c camp0 blocks idx total st).campaign.totalContacts
        = st.campaign.totalContacts ∧
      (runBlocks env c camp0 blocks idx total st).events.countP isCompletedEv
        = st.events.countP isCompletedEv := by
  intro blocks
  induction blocks with
  | nil => exact fun idx total st => ⟨rfl, rfl, rfl, rfl, rfl⟩
  | cons b rest ih =>
    intro idx total st
    obtain ⟨hA1, hA2, hA3, hA4, _, hA6⟩ := applyOverride_frame env st
    simp only [runBlocks]
    split
    · exact ih (idx + 1) total st
    · split
      · exact ⟨hA1, hA2, hA3, hA4, by rw [hA6]⟩
      · split
        · refine ⟨((ih _ _ _).1).trans hA1, ((ih _ _ _).2.1).trans hA2,
            ((ih _ _ _).2.2.1).trans hA3, ((ih _ _ _).2.2.2.1).trans hA4, ?_⟩
          rw [(ih _ _ _).2.2.2.2]
          show ((applyOverride env st).events ++
            [Event.blockSent c.id (idx + 1) total]).countP isCompletedEv
              = st.events.countP isCompletedEv
          rw [List.countP_append, hA6]
          simp [isCompletedEv]
        · split
          · exact ⟨hA1, hA2, hA3, hA4, by
              show ((applyOverride env st).events).countP isCompletedEv
                = st.events.countP isCompletedEv
              rw [hA6]⟩
          · refine ⟨((ih _ _ _).1).trans hA1, ((ih _ _ _).2.1).trans hA2,
              ((ih _ _ _).2.2.1).trans hA3, ((ih _ _ _).2.2.2.1).trans hA4, ?_⟩
            rw [(ih _ _ _).2.2.2.2]
            show ((applyOverride env st).events).countP isCompletedEv
              = st.events.countP isCompletedEv
            rw [hA6]

theorem successStep_frame (env : Env) (camp0 : Campaign) (total : Nat)
    (c : Contact) (st1 : St) :
    (successStep env camp0 total c st1).campaign.sentCount
      = st1.campaign.sentCount + 1 ∧
    (successStep env camp0 total c st1).campaign.failedCount
      = st1.campaign.failedCount ∧
    (successStep env camp0 total c st1).campaign.totalContacts
      = st1.campaign.totalContacts ∧
    (successStep env camp0 total c st1).events.countP isCompletedEv
      = st1.events.countP isCompletedEv := by
  refine ⟨rfl, ?_, ?_, ?_⟩
  · unfold successStep
    simp only []
    split
    · exact (runBlocks_frame env c camp0 _ _ _ _).2.2.1
    · rfl
  · unfold successStep
    simp only []
    split
    · exact (runBlocks_frame env c camp0 _ _ _ _).2.2.2.1
    · rfl
  · unfold successStep
    simp only []
    split
    · rw [List.countP_append, (runBlocks_frame env c camp0 _ _ _ _).2.2.2.2]
      simp [isCompletedEv]
    · rw [List.countP_append]
      simp [isCompletedEv]

theorem failStep_frame (c : Contact) (err : List Char) (st1 : St) :
    (failStep c err st1).campaign.sentCount = st1.campaign.sentCount ∧
    (failStep c err st1).campaign.failedCount = st1.campaign.failedCount + 1 ∧
    (failStep c err st1).campaign.totalContacts = st1.campaign.totalContacts ∧
    (failStep c err st1).events.countP isCompletedEv
      = st1.events.countP isCompletedEv := by
  refine ⟨rfl, rfl, rfl, ?_⟩
  show (st1.events ++ [Event.progressFailed c.id err]).countP isCompletedEv
    = st1.events.countP isCompletedEv
  rw [List.countP_append]
  simp [isCompletedEv]

theorem excStep_frame (c : Contact) (m : List Char) (st1 : St) :
    (excStep c m st1).campaign = st1.campaign ∧
    (excStep c m st1).events = st1.events := ⟨rfl, rfl⟩

theorem successStep_contacts (env : Env) (camp0 : Campaign) (total : Nat)
    (c : Contact) (st1 : St) :
    (successStep env camp0 total c st1).contacts
      = updC st1.contacts c.id
          (fun x => { x with status := ContactStatus.sent, sentAt := some st1.tick }) := by
  unfold successStep
  simp only []
  split
  · exact (runBlocks_frame env c camp0 _ _ _ _).1
  · rfl

theorem updC_failed_mem (cs : List Contact) (cid : Nat) (m : List Char) :
    ∀ x ∈ updC cs cid
        (fun y => { y with status := ContactStatus.failed, errorMessage := some m }),
      x.id = cid → x.status = ContactStatus.failed ∧ x.errorMessage = some m := by
  intro x hx hxid
  unfold updC at hx
  obtain ⟨y, _, hxy⟩ := List.mem_map.mp hx
  by_cases h : y.id = cid
  · rw [if_pos h] at hxy
    subst hxy
    exact ⟨rfl, rfl⟩
  · rw [if_neg h] at hxy
    subst hxy
    exact absurd hxid h

theorem updC_sent_mem (cs : List Contact) (cid : Nat) (t : Nat) :
    ∀ x ∈ updC cs cid
        (fun y => { y with status := ContactStatus.sent, sentAt := some t }),
      x.id = cid → x.status = ContactStatus.sent := by
  intro x hx hxid
  unfold updC at hx
  obtain ⟨y, _, hxy⟩ := List.mem_map.mp hx
  by_cases h : y.id = cid
  · rw [if_pos h] at hxy
    subst hxy
    rfl
  · rw [if_neg h] at hxy
    subst hxy
    exact absurd hxid h

theorem completionCheck_contacts (st : St) :
    (completionCheck st).contacts = st.contacts := by
  unfold completionCheck
  split <;> rfl

theorem runLoop_mono (env : Env) (camp0 : Campaign) (total : Nat) :
    ∀ (pending : List Contact) (st : St),
      st.campaign.sentCount ≤ (runLoop env camp0 total pending st).campaign.sentCount ∧
      st.campaign.failedCount ≤ (runLoop env camp0 total pending st).campaign.failedCount := by
  intro pending
  induction pending with
  | nil => exact fun st => ⟨Nat.le_refl _, Nat.le_refl _⟩
  | cons c rest ih =>
    intro st
    obtain ⟨hA1, hA2, hA3, hA4, hA5, hA6⟩ := applyOverride_frame env st
    simp only [runLoop]
    split
    · rw [hA2, hA3]
      exact ⟨Nat.le_refl _, Nat.le_refl _⟩
    · split
      · refine ⟨Nat.le_trans ?_ (ih _).1, Nat.le_trans ?_ (ih _).2⟩
        · rw [(excStep_frame _ _ _).1, hA2]
        · rw [(excStep_frame _ _ _).1, hA3]
      · split
        · refine ⟨Nat.le_trans ?_ (ih _).1, Nat.le_trans ?_ (ih _).2⟩
          · rw [(successStep_frame env camp0 total c _).1, hA2]
            exact Nat.le_succ _
          · rw [(successStep_frame env camp0 total c _).2.1, hA3]
        · refine ⟨Nat.le_trans ?_ (ih _).1, Nat.le_trans ?_ (ih _).2⟩
          · rw [(failStep_frame c _ _).1, hA2]
          · rw [(failStep_frame c _ _).2.1, hA3]
            exact Nat.le_succ _

theorem runLoop_sum_le (env : Env) (camp0 : Campaign) (total : Nat) :
    ∀ (pending : List Contact) (st : St),
      st.campaign.sentCount + st.campaign.failedCount + pending.length
          ≤ st.campaign.totalContacts →
      (runLoop env camp0 total pending st).campaign.sentCount
          + (runLoop env camp0 total pending st).campaign.failedCount
        ≤ (runLoop env camp0 total pending st).campaign.totalContacts := by
  intro pending
  induction pending with
  | nil =>
    intro st h
    simp only [runLoop]
    omega
  | cons c rest ih =>
    intro st h
    obtain ⟨hA1, hA2, hA3, hA4, hA5, hA6⟩ := applyOverride_frame env st
    simp only [runLoop]
    split
    · rw [hA2, hA3, hA4]
      simp only [List.length_cons] at h
      omega
    · split
      · refine ih _ ?_
        rw [(excStep_frame _ _ _).1, hA2, hA3, hA4]
        simp only [List.length_cons] at h
        omega
      · split
        · refine ih _ ?_
          rw [(successStep_frame env camp0 total c _).1,
            (successStep_frame env camp0 total c _).2.1,
            (successStep_frame env camp0 total c _).2.2.1, hA2, hA3, hA4]
          simp only [List.length_cons] at h
          omega
        · refine ih _ ?_
          rw [(failStep_frame c _ _).1, (failStep_frame c _ _).2.1,
            (failStep_frame c _ _).2.2.1, hA2, hA3, hA4]
          simp only [List.length_cons] at h
          omega

theorem runLoop_completed_count (env : Env) (camp0 : Campaign) (total : Nat) :
    ∀ (pending : List Contact) (st : St),
      ((runLoop env camp0 total pending st).events).countP isCompletedEv
        = st.events.countP isCompletedEv := by
  intro pending
  induction pending with
  | nil => exact fun st => rfl
  | cons c rest ih =>
    intro st
    obtain ⟨hA1, hA2, hA3, hA4, hA5, hA6⟩ := applyOverride_frame env st
    simp only [runLoop]
    split
    · rw [hA6]
    · split
      · rw [ih _, (excStep_frame _ _ _).2, hA6]
      · split
        · rw [ih _, (successStep_frame env camp0 total c _).2.2.2, hA6]
        · rw [ih _, (failStep_frame c _ _).2.2.2, hA6]

theorem runLoop_contact_frame (env : Env) (camp0 : Campaign) (total : Nat) :
    ∀ (pending : List Contact) (st : St) (i : Nat) (x : Contact),
      st.contacts[i]? = some x → (∀ p ∈ pending, p.id ≠ x.id) →
      (runLoop env camp0 total pending st).contacts[i]? = some x := by
  intro pending
  induction pending with
  | nil => exact fun st i x hx _ => hx
  | cons c rest ih =>
    intro st i x hx hp
    have hA1 := (applyOverride_frame env st).1
    have hcid : ¬ x.id = c.id := fun h => hp c (List.mem_cons_self c rest) h.symm
    have hstep : ∀ f : Contact → Contact,
        (updC (applyOverride env st).contacts c.id f)[i]? = some x := by
      intro f
      rw [updC_getElem?, hA1, hx]
      simp [hcid]
    have hrest : ∀ p ∈ rest, p.id ≠ x.id :=
      fun p h => hp p (List.mem_cons_of_mem c h)
    simp only [runLoop]
    split
    · rw [hA1]
      exact hx
    · split
      · exact ih _ i x (hstep _) hrest
      · split
        · refine ih _ i x ?_ hrest
          rw [successStep_contacts]
          exact hstep _
        · exact ih _ i x (hstep _) hrest

theorem runBlocks_status_noov (env : Env) (c : Contact) (camp0 : Campaign)
    (hov : ∀ t, env.statusOverride t = none) :
    ∀ (blocks : List (List Char)) (idx total : Nat) (st : St),
      (runBlocks env c camp0 blocks idx total st).campaign.status
        = st.campaign.status := by
  intro blocks
  induction blocks with
  | nil => exact fun idx total st => rfl
  | cons b rest ih =>
    intro idx total st
    simp only [runBlocks]
    rw [applyOverride_none env st (hov st.tick)]
    split
    · exact ih (idx + 1) total st
    · split
      · rfl
      · split
        · exact ih (idx + 1) total _
        · split
          · rfl
          · exact ih (idx + 1) total _

theorem successStep_status_noov (env : Env) (camp0 : Campaign) (total : Nat)
    (c : Contact) (st1 : St) (hov : ∀ t, env.statusOverride t = none) :
    (successStep env camp0 total c st1).campaign.status
      = st1.campaign.status := by
  unfold successStep
  simp only []
  split
  · exact runBlocks_status_noov env c camp0 hov _ _ _ _
  · rfl

theorem runLoop_sum_eq (env : Env) (camp0 : Campaign) (total : Nat)
    (hov : ∀ t, env.statusOverride t = none) :
    ∀ (pending : List Contact) (st : St),
      st.campaign.status = CStatus.active →
      (∀ c ∈ pending, env.exc c.id = none) →
      (runLoop env camp0 total pending st).campaign.sentCount
          + (runLoop env camp0 total pending st).campaign.failedCount
        = st.campaign.sentCount + st.campaign.failedCount + pending.length := by
  intro pending
  induction pending with
  | nil =>
    intro st _ _
    simp [runLoop]
  | cons c rest ih =>
    intro st hact hexc
    simp only [runLoop]
    rw [applyOverride_none env st (hov st.tick)]
    rw [if_neg (by simp [hact] :
      ¬ ({ st with tick := st.tick + 1 } : St).campaign.status ≠ CStatus.active)]
    rw [hexc c (List.mem_cons_self c rest)]
    have hrest : ∀ p ∈ rest, env.exc p.id = none :=
      fun p h => hexc p (List.mem_cons_of_mem c h)
    cases hp : env.primary c.id with
    | none =>
      rw [ih _ (by
          rw [successStep_status_noov env camp0 total c _ hov]
          exact hact) hrest]
      rw [(successStep_frame env camp0 total c _).1,
        (successStep_frame env camp0 total c _).2.1]
      simp only [List.length_cons]
      omega
    | some err =>
      rw [ih _ (by
          have h := (failStep_frame c err ({ st with tick := st.tick + 1 } : St)).1
          exact hact) hrest]
      rw [(failStep_frame c _ _).1, (failStep_frame c _ _).2.1]
      simp only [List.length_cons]
      omega

/-- C2: a per-contact checkpoint observing a non-active status stops the
loop at once, leaving every remaining contact untouched (hence still
pending); and a run never touches a contact that is not pending — the
pending filter selects the work list, so a contact already `sent` or
`failed` survives any later run of the campaign unchanged (contact ids are
primary keys, hence the no-duplicate hypothesis). -/
theorem checkpoint_stops_loop_and_pending_only :
    (∀ (env : Env) (camp0 : Campaign) (total : Nat) (c : Contact)
        (rest : List Contact) (st : St),
      (applyOverride env st).campaign.status ≠ CStatus.active →
      runLoop env camp0 total (c :: rest) st = applyOverride env st) ∧
    (∀ (env : Env) (st : St) (i : Nat) (x : Contact),
      (st.contacts.map Contact.id).Nodup →
      st.contacts[i]? = some x → x.status ≠ ContactStatus.pending →
      (processCampaign env st).contacts[i]? = some x) := by
  constructor
  · intro env camp0 total c rest st h
    simp only [runLoop]
    rw [if_pos h]
  · intro env st i x hnd hx hxs
    unfold processCampaign
    simp only []
    split
    · rw [(applyOverride_frame env st).1]
      exact hx
    · rw [completionCheck_contacts]
      refine runLoop_contact_frame env _ _ _ _ i x ?_ ?_
      · rw [(applyOverride_frame env st).1]
        exact hx
      · intro p hp
        rw [(applyOverride_frame env st).1] at hp
        have hpm : p ∈ st.contacts := List.mem_of_mem_filter hp
        have hps : p.status = ContactStatus.pending := by
          have h := List.of_mem_filter hp
          simpa using h
        have hxm : x ∈ st.contacts := by
          obtain ⟨hlt, rfl⟩ := List.getElem?_eq_some.mp hx
          exact List.getElem_mem hlt
        intro hid
        have hpx : p = x := List.inj_on_of_nodup_map hnd hpm hxm hid
        rw [hpx] at hps
        exact hxs hps

/-- C2 witness: a pause lands before the only contact's checkpoint and the
loop stops at once; an already-sent contact is untouched by a later run. -/
theorem checkpoint_stops_loop_witness :
    (runLoop pauseEnv baseCampaign 1 [pendContact 0] baseSt
      = applyOverride pauseEnv baseSt) ∧
    (processCampaign okEnv sentSt).contacts[0]? = some sentContact :=
  ⟨checkpoint_stops_loop_and_pending_only.1 pauseEnv baseCampaign 1
      (pendContact 0) [] baseSt (by decide),
    checkpoint_stops_loop_and_pending_only.2 okEnv sentSt 0 sentContact
      (by decide) (by decide) (by decide)⟩

/-- C9: an unexpected exception with message `m` thrown while processing a
contact is caught at the per-contact boundary — the loop continues with the
remaining contacts from a state in which only that contact changed, and the
contact is marked `failed` with the exception message as its error. -/
theorem exception_caught_per_contact :
    ∀ (env : Env) (camp0 : Campaign) (total : Nat) (c : Contact)
      (rest : List Contact) (st : St) (m : List Char),
      (applyOverride env st).campaign.status = CStatus.active →
      env.exc c.id = some m →
      runLoop env camp0 total (c :: rest) st
        = runLoop env camp0 total rest (excStep c m (applyOverride env st)) ∧
      ∀ x ∈ (excStep c m (applyOverride env st)).contacts, x.id = c.id →
        x.status = ContactStatus.failed ∧ x.errorMessage = some m := by
  intro env camp0 total c rest st m hact hexc
  constructor
  · simp only [runLoop]
    rw [if_neg (by simp [hact]), hexc]
  · intro x hx hid
    exact updC_failed_mem (applyOverride env st).contacts c.id m x hx hid

/-- C9 witness: the exception boundary evaluated on a concrete one-contact
run whose processing throws `boom`. -/
theorem exception_caught_per_contact_witness :
    runLoop excEnv baseCampaign 1 [pendContact 0] baseSt
      = runLoop excEnv baseCampaign 1 []
          (excStep (pendContact 0) "boom".toList (applyOverride excEnv baseSt)) :=
  (exception_caught_per_contact excEnv baseCampaign 1 (pendContact 0) [] baseSt
    "boom".toList (by decide) rfl).1

/-- C8: with the client down (`this.client` null) `sendMessage` fails
immediately — the not-connected result, zero send attempts, zero reconnect
cycles, for every retry budget; and at the dispatcher a failed primary send
marks that one contact `failed` with the error and the loop continues with
the next contact. -/
theorem not_connected_immediate_failure :
    (∀ (b : Whatsapp.ClientBehavior) (toAddr message : String)
        (showTyping : Bool) (retries aIdx rIdx : Nat),
      Whatsapp.sendMessage b toAddr message showTyping false retries aIdx rIdx
        = Except.ok (⟨false, some "WhatsApp not connected"⟩, 0, 0)) ∧
    (∀ (env : Env) (camp0 : Campaign) (total : Nat) (c : Contact)
        (rest : List Contact) (st : St) (err : List Char),
      (applyOverride env st).campaign.status = CStatus.active →
      env.exc c.id = none → env.primary c.id = some err →
      runLoop env camp0 total (c :: rest) st
        = runLoop env camp0 total rest (failStep c err (applyOverride env st)) ∧
      ∀ x ∈ (failStep c err (applyOverride env st)).contacts, x.id = c.id →
        x.status = ContactStatus.failed ∧ x.errorMessage = some err) := by
  constructor
  · intro b toAddr message showTyping retries aIdx rIdx
    cases retries <;> rfl
  · intro env camp0 total c rest st err hact hexc hp
    constructor
    · simp only [runLoop]
      rw [if_neg (by simp [hact]), hexc, hp]
    · intro x hx hid
      exact updC_failed_mem (applyOverride env st).contacts c.id err x hx hid

theorem successStep_events_getLast (env : Env) (camp0 : Campaign) (total : Nat)
    (c : Contact) (st1 : St) :
    (successStep env camp0 total c st1).events.getLast?
      = some (Event.progressSent c.id
          (((st1.campaign.sentCount + 1 : ℚ) / (total : ℚ)) * 100)) := by
  unfold successStep
  simp only []
  rw [List.getLast?_concat]

/-- C5: a contact whose primary send succeeds makes the loop continue from
the success step, which increments `sentCount` by one and, as its last
broadcast, emits the `campaign_progress {status: 'sent'}` event whose
progress is the just-incremented `sentCount` divided by the campaign's
`totalContacts`, times 100 (the code divides by the number of loaded
contacts, which the hypothesis equates with the `totalContacts` counter —
the invariant the contact-import path maintains). -/
theorem progress_event_on_success :
    ∀ (env : Env) (camp0 : Campaign) (total : Nat) (c : Contact)
      (rest : List Contact) (st : St),
      (applyOverride env st).campaign.status = CStatus.active →
      env.exc c.id = none → env.primary c.id = none →
      (applyOverride env st).campaign.totalContacts = total →
      runLoop env camp0 total (c :: rest) st
        = runLoop env camp0 total rest
            (successStep env camp0 total c (applyOverride env st)) ∧
      (successStep env camp0 total c (applyOverride env st)).campaign.sentCount
        = (applyOverride env st).campaign.sentCount + 1 ∧
      (successStep env camp0 total c (applyOverride env st)).events.getLast?
        = some (Event.progressSent c.id
            ((((applyOverride env st).campaign.sentCount + 1 : ℚ)
              / (((applyOverride env st).campaign.totalContacts : Nat) : ℚ)) * 100)) := by
  intro env camp0 total c rest st hact hexc hp htot
  refine ⟨?_, (successStep_frame env camp0 total c _).1, ?_⟩
  · simp only [runLoop]
    rw [if_neg (by simp [hact]), hexc, hp]
  · rw [htot]
    exact successStep_events_getLast env camp0 total c (applyOverride env st)

/-- C5 witness: the success step of a concrete one-contact run emits the
`sent` progress event at 100%. -/
theorem progress_event_on_success_witness :
    (successStep okEnv baseCampaign 1 (pendContact 0)
        (applyOverride okEnv baseSt)).events.getLast?
      = some (Event.progressSent 0
          ((((applyOverride okEnv baseSt).campaign.sentCount + 1 : ℚ)
            / (((applyOverride okEnv baseSt).campaign.totalContacts : Nat) : ℚ))
              * 100)) :=
  (progress_event_on_success okEnv baseCampaign 1 (pendContact 0) [] baseSt
    (by decide) rfl rfl (by decide)).2.2

/-- C6: the completion check after the loop — when the re-loaded contacts
have no pending entry left, the campaign is set `completed`, one activity
log entry is recorded and one `campaign_completed` event is appended;
when pending contacts remain, the check changes nothing (so the dispatcher
leaves the externally set status untouched); and over a whole active run
ending with no pending contact, exactly one `campaign_completed` event is
emitted and the final status is `completed`. -/
theorem completion_transition :
    (∀ st : St,
      (st.contacts.filter (fun c => c.status == ContactStatus.pending)).length = 0 →
      completionCheck st = { st with
        campaign := { st.campaign with status := CStatus.completed },
        log := st.log ++ [LogEntry.campaignCompleted],
        events := st.events ++ [Event.campaignCompleted st.campaign.name] }) ∧
    (∀ st : St,
      (st.contacts.filter (fun c => c.status == ContactStatus.pending)).length ≠ 0 →
      completionCheck st = st) ∧
    (∀ (env : Env) (st : St),
      (applyOverride env st).campaign.status = CStatus.active →
      ((processCampaign env st).contacts.filter
          (fun c => c.status == ContactStatus.pending)).length = 0 →
      (processCampaign env st).campaign.status = CStatus.completed ∧
      ((processCampaign env st).events).countP isCompletedEv
        = st.events.countP isCompletedEv + 1) := by
  refine ⟨?_, ?_, ?_⟩
  · intro st h
    unfold completionCheck
    rw [if_pos h]
  · intro st h
    unfold completionCheck
    rw [if_neg h]
  · intro env st hact hnone
    unfold processCampaign at hnone ⊢
    simp only [] at hnone ⊢
    rw [if_neg (by simp [hact])] at hnone ⊢
    rw [completionCheck_contacts] at hnone
    constructor
    · unfold completionCheck
      rw [if_pos hnone]
    · unfold completionCheck
      rw [if_pos hnone]
      show ((runLoop env _ _ _ _).events
        ++ [Event.campaignCompleted _]).countP isCompletedEv
          = st.events.countP isCompletedEv + 1
      rw [List.countP_append, runLoop_completed_count,
        (applyOverride_frame env st).2.2.2.2.2]
      simp [isCompletedEv]

/-- C6 witness: completion on a state with no pending contact, the no-op on
a state with one, and the exactly-one completed event of a full concrete
run. -/
theorem completion_transition_witness :
    (completionCheck sentSt = { sentSt with
      campaign := { sentSt.campaign with status := CStatus.completed },
      log := sentSt.log ++ [LogEntry.campaignCompleted],
      events := sentSt.events
        ++ [Event.campaignCompleted sentSt.campaign.name] }) ∧
    completionCheck baseSt = baseSt ∧
    (processCampaign okEnv baseSt).campaign.status = CStatus.completed ∧
    ((processCampaign okEnv baseSt).events).countP isCompletedEv
      = baseSt.events.countP isCompletedEv + 1 := by
  refine ⟨completion_transition.1 sentSt (by decide),
    completion_transition.2.1 baseSt (by decide), ?_⟩
  have h := completion_transition.2.2 okEnv baseSt (by decide) (by decide)
  exact h

/-- C7: a contact whose primary send succeeded ends its processing with
status `sent` whatever the block sends do (the success step is the only
writer of its status and writes `sent`); and a block failing with a
connection-kind error makes the block loop log that failure and stop
without touching the remaining blocks. -/
theorem primary_success_never_downgraded :
    (∀ (env : Env) (camp0 : Campaign) (total : Nat) (c : Contact) (st1 : St),
      ∀ x ∈ (successStep env camp0 total c st1).contacts, x.id = c.id →
        x.status = ContactStatus.sent) ∧
    (∀ (env : Env) (c : Contact) (camp0 : Campaign) (b : List Char)
        (rest : List (List Char)) (idx total : Nat) (st : St) (err : List Char),
      trimmedNonempty b = true →
      (applyOverride env st).campaign.status = CStatus.active →
      env.block c.id idx = some err → connKindErr err = true →
      runBlocks env c camp0 (b :: rest) idx total st
        = { applyOverride env st with
            log := (applyOverride env st).log
              ++ [LogEntry.blockError c.id (idx + 1) err] }) := by
  constructor
  · intro env camp0 total c st1 x hx hid
    rw [successStep_contacts] at hx
    exact updC_sent_mem st1.contacts c.id st1.tick x hx hid
  · intro env c camp0 b rest idx total st err hb hact hblk hconn
    simp only [runBlocks]
    rw [if_neg (by simp [hb]), if_neg (by simp [hact]), hblk]
    simp only []
    rw [if_pos hconn]

/-- C7 witness: a concrete contact stays `sent` after a connection-kind
block failure, and that failure halts the block loop after its log entry. -/
theorem primary_success_never_downgraded_witness :
    (∀ x ∈ (successStep blockFailEnv blocksCampaign
        1 (pendContact 0) (applyOverride blockFailEnv baseSt)).contacts,
      x.id = (pendContact 0).id → x.status = ContactStatus.sent) ∧
    runBlocks blockFailEnv (pendContact 0) blocksCampaign
        blocksCampaign.messageBlocks 0 2 baseSt
      = { applyOverride blockFailEnv baseSt with
          log := (applyOverride blockFailEnv baseSt).log
            ++ [LogEntry.blockError 0 1
                "WhatsApp não conectado. Estado: CONFLICT".toList] } :=
  ⟨primary_success_never_downgraded.1 blockFailEnv blocksCampaign
      1 (pendContact 0) (applyOverride blockFailEnv baseSt),
    primary_success_never_downgraded.2 blockFailEnv (pendContact 0)
      blocksCampaign "Bloco A".toList ["Bloco B".toList] 0 2 baseSt
      "WhatsApp não conectado. Estado: CONFLICT".toList
      (by decide) (by decide) rfl (by decide)⟩

/-- C3 counterexample: a run that processes its one contact through the
per-contact exception handler marks it `failed` but increments neither
counter, so `sentCount + failedCount` is 0 while 1 contact was processed
with a failure outcome — the claim's equality fails on the code. -/
theorem counters_ignore_exception_failures :
    (processCampaign excEnv baseSt).contacts = [failedBoomContact] ∧
    (processCampaign excEnv baseSt).campaign.sentCount
        + (processCampaign excEnv baseSt).campaign.failedCount = 0 := by
  constructor
  · decide
  · decide

/-- C3 amended: within a run counters are monotonically non-decreasing and
`sentCount + failedCount` stays bounded by `totalContacts` (given the
entry invariant); and when no processed contact hits the unexpected-
exception handler, `sentCount + failedCount` grows by exactly the number
of contacts processed — contacts failed by the exception handler are not
counted in `failedCount`. -/
theorem counters_track_send_outcomes :
    (∀ (env : Env) (camp0 : Campaign) (total : Nat) (pending : List Contact)
        (st : St),
      st.campaign.sentCount
          ≤ (runLoop env camp0 total pending st).campaign.sentCount ∧
      st.campaign.failedCount
          ≤ (runLoop env camp0 total pending st).campaign.failedCount) ∧
    (∀ (env : Env) (camp0 : Campaign) (total : Nat) (pending : List Contact)
        (st : St),
      (∀ t, env.statusOverride t = none) →
      st.campaign.status = CStatus.active →
      (∀ c ∈ pending, env.exc c.id = none) →
      (runLoop env camp0 total pending st).campaign.sentCount
          + (runLoop env camp0 total pending st).campaign.failedCount
        = st.campaign.sentCount + st.campaign.failedCount + pending.length) ∧
    (∀ (env : Env) (camp0 : Campaign) (total : Nat) (pending : List Contact)
        (st : St),
      st.campaign.sentCount + st.campaign.failedCount + pending.length
          ≤ st.campaign.totalContacts →
      (runLoop env camp0 total pending st).campaign.sentCount
          + (runLoop env camp0 total pending st).campaign.failedCount
        ≤ (runLoop env camp0 total pending st).campaign.totalContacts) :=
  ⟨fun env camp0 total pending st => runLoop_mono env camp0 total pending st,
    fun env camp0 total pending st hov hact hexc =>
      runLoop_sum_eq env camp0 total hov pending st hact hexc,
    fun env camp0 total pending st h =>
      runLoop_sum_le env camp0 total pending st h⟩

/-- C3 witness: the amended counter laws evaluated on a concrete
one-contact run with no exceptions. -/
theorem counters_track_send_outcomes_witness :
    (runLoop okEnv baseCampaign 1 [pendContact 0] baseSt).campaign.sentCount
        + (runLoop okEnv baseCampaign 1 [pendContact 0] baseSt).campaign.failedCount
      = baseSt.campaign.sentCount + baseSt.campaign.failedCount + 1 ∧
    (runLoop okEnv baseCampaign 1 [pendContact 0] baseSt).campaign.sentCount
        + (runLoop okEnv baseCampaign 1 [pendContact 0] baseSt).campaign.failedCount
      ≤ (runLoop okEnv baseCampaign 1 [pendContact 0] baseSt).campaign.totalContacts :=
  ⟨counters_track_send_outcomes.2.1 okEnv baseCampaign 1 [pendContact 0] baseSt
      (fun _ => rfl) rfl (fun c _ => rfl),
    counters_track_send_outcomes.2.2 okEnv baseCampaign 1 [pendContact 0] baseSt
      (by decide)⟩

/-- C8 witness: the not-connected result on a concrete client, and the loop
stepping over a concrete contact whose send failed. -/
theorem not_connected_immediate_failure_witness :
    (Whatsapp.sendMessage Whatsapp.detachedClient "5511999999999" "oi" true
        false 2 0 0
      = Except.ok (⟨false, some "WhatsApp not connected"⟩, 0, 0)) ∧
    runLoop failEnv baseCampaign 1 [pendContact 0] baseSt
      = runLoop failEnv baseCampaign 1 []
          (failStep (pendContact 0) "WhatsApp not connected".toList
            (applyOverride failEnv baseSt)) :=
  ⟨not_connected_immediate_failure.1 Whatsapp.detachedClient "5511999999999"
      "oi" true 2 0 0,
    (not_connected_immediate_failure.2 failEnv baseCampaign 1 (pendContact 0)
      [] baseSt "WhatsApp not connected".toList (by decide) rfl rfl).1⟩

end Dispatcher

namespace Whatsapp

/-- C10: `sendMessage` never throws — for every client behaviour (including
ones whose state check, typing simulation, send or reconnection throw),
every connection state, retry budget and typing option, it returns a result
object, never an uncaught exception. -/
theorem sendMessage_total (b : ClientBehavior) (toAddr message : String)
    (showTyping clientUp : Bool) (retries aIdx rIdx : Nat) :
    ∃ res : SendResult × Nat × Nat,
      sendMessage b toAddr message showTyping clientUp retries aIdx rIdx =
        Except.ok res := by
  cases clientUp with
  | false =>
    refine ⟨(⟨false, some "WhatsApp not connected"⟩, 0, 0), ?_⟩
    cases retries <;> rfl
  | true =>
    induction retries generalizing aIdx rIdx with
    | zero =>
      simp only [sendMessage]
      split <;> exact ⟨_, rfl⟩
    | succ r ih =>
      simp only [sendMessage]
      repeat' first
        | exact ⟨_, rfl⟩
        | (obtain ⟨v, hv⟩ := ih (aIdx + 1) (rIdx + 1); rw [hv]; exact ⟨_, rfl⟩)
        | split

theorem attemptBody_detached (b : ClientBehavior) (showTyping : Bool) (n : Nat)
    (e : String) (hstate : b.connState n = Except.ok "CONNECTED")
    (hsend : b.sendText n = Except.error e) :
    attemptBody b showTyping n = Except.error e := by
  simp [attemptBody, hstate, hsend]

/-- C1: when the client is up, its state reads `CONNECTED`, every `sendText`
throws a transient (`detached Frame`) error and every reconnect cycle
succeeds, a send with the default budget of 2 retries performs exactly 3
send attempts and exactly 2 disconnect-reconnect cycles, then returns a
failure result (the last underlying error) instead of retrying further. -/
theorem sendMessage_retry_bound (b : ClientBehavior) (toAddr message : String)
    (showTyping : Bool) (e : Nat → String) (aIdx rIdx : Nat)
    (hstate : ∀ n, b.connState n = Except.ok "CONNECTED")
    (hsend : ∀ n, b.sendText n = Except.error (e n))
    (hdf : ∀ n, includes (e n) "detached Frame" = true)
    (hrec : ∀ k, b.reconnect k = Except.ok true) :
    sendMessage b toAddr message showTyping true 2 aIdx rIdx =
      Except.ok (⟨false, some (e (aIdx + 2))⟩, 3, 2) := by
  have hab : ∀ n, attemptBody b showTyping n = Except.error (e n) :=
    fun n => attemptBody_detached b showTyping n (e n) (hstate n) (hsend n)
  simp only [sendMessage, hab, hdf, hrec, if_true]

/-- C1 witness: the retry bound evaluated on a concrete always-failing
client. -/
theorem sendMessage_retry_bound_witness :
    sendMessage detachedClient "5511999999999" "hello" true true 2 0 0 =
      Except.ok (⟨false, some "Protocol error: detached Frame"⟩, 3, 2) := by
  have h : includes "Protocol error: detached Frame" "detached Frame" = true := by
    decide
  exact sendMessage_retry_bound detachedClient "5511999999999" "hello" true
    (fun _ => "Protocol error: detached Frame") 0 0
    (fun _ => rfl) (fun _ => rfl) (fun _ => h) (fun _ => rfl)

end Whatsapp
